import Mathlib

/-!
Verification development for the librosa-based audio-analysis pipeline
(`src/electron/analysis/analyze_song.py` and `src/electron/analysis/analyze_song_hpss.py`).

The Python sources are shallowly embedded over exact rationals (`ℚ`):

* numpy float arrays become `List ℚ`;
* the handful of genuinely external numeric kernels (FFT magnitudes,
  `librosa` feature extractors, `log2`, the real square root) are passed in
  as explicit oracle parameters, so every selection / threshold / control-flow
  decision of the repository's own code is embedded exactly;
* Python `try/except` control flow becomes explicit `Except` values;
* `np.linalg.norm x == 0` is embedded as `sumSq x = 0` (equivalent, since a
  real square root is zero exactly on zero) and the coefficient-of-variation
  test `std/(mean+1e-10) < 0.15` is embedded by `cvLt` in an exactly
  equivalent squared form (lemma `cvLt_iff_sqrt` proves the equivalence
  against `Real.sqrt`).
-/

/-- Sum of a list of rationals (`np.sum`). -/
def qSum (l : List ℚ) : ℚ := l.foldl (· + ·) 0

/-- Arithmetic mean (`np.mean`); Lean's `x / 0 = 0` stands in for the empty
case, which is unreachable in every guarded use below. -/
def qMean (l : List ℚ) : ℚ := qSum l / l.length

/-- Population variance, i.e. the square of `np.std` (default `ddof=0`). -/
def varP (l : List ℚ) : ℚ := qMean (l.map (fun x => (x - qMean l) ^ 2))

/-- Sum of squares; `np.linalg.norm l == 0` iff `sumSq l = 0`. -/
def sumSq (l : List ℚ) : ℚ := qSum (l.map (fun x => x ^ 2))

/-- `np.diff`: consecutive differences `l[i+1] - l[i]`. -/
def diffs (l : List ℚ) : List ℚ := List.zipWith (· - ·) l.tail l

/-- Lag-`k` raw autocorrelation `Σ_i l[i] * l[i+k]`: entry `k` of
`np.correlate(l, l, mode='full')[len-1:]`. -/
def acorr (l : List ℚ) (k : ℕ) : ℚ := qSum (List.zipWith (· * ·) l (l.drop k))

/-- `np.max` over a (nonempty) list. -/
def listMax : List ℚ → ℚ
  | [] => 0
  | [x] => x
  | x :: y :: t => max x (listMax (y :: t))

/-- `np.min` over a (nonempty) list. -/
def listMin : List ℚ → ℚ
  | [] => 0
  | [x] => x
  | x :: y :: t => min x (listMin (y :: t))

/-- `np.argmax`: index of the first maximal element. -/
def argmaxIdx : List ℚ → ℕ
  | [] => 0
  | [_] => 0
  | x :: y :: t => if listMax (y :: t) > x then argmaxIdx (y :: t) + 1 else 0

/-- Python `int(q)`: truncation toward zero. -/
def intTrunc (q : ℚ) : ℤ := Int.tdiv q.num q.den

theorem le_listMax {x : ℚ} : ∀ {l : List ℚ}, x ∈ l → x ≤ listMax l
  | [], h => absurd h (List.not_mem_nil x)
  | [y], h => by
      rcases List.mem_singleton.mp h with rfl
      exact le_of_eq rfl
  | y :: z :: t, h => by
      rcases List.mem_cons.mp h with rfl | h'
      · exact le_max_left _ _
      · exact le_trans (le_listMax h') (le_max_right _ _)

theorem argmaxIdx_lt_length : ∀ {l : List ℚ}, l ≠ [] → argmaxIdx l < l.length
  | [], h => absurd rfl h
  | [_], _ => by simp [argmaxIdx]
  | x :: y :: t, _ => by
      by_cases hc : listMax (y :: t) > x
      · have ih := argmaxIdx_lt_length (l := y :: t) (by simp)
        simp only [List.length_cons] at ih
        simp only [argmaxIdx, if_pos hc, List.length_cons]
        omega
      · simp [argmaxIdx, if_neg hc]

theorem getD_argmaxIdx : ∀ {l : List ℚ}, l ≠ [] → l.getD (argmaxIdx l) 0 = listMax l
  | [], h => absurd rfl h
  | [_], _ => by simp [argmaxIdx, listMax]
  | x :: y :: t, _ => by
      by_cases hc : listMax (y :: t) > x
      · have ih := getD_argmaxIdx (l := y :: t) (by simp)
        simp only [argmaxIdx, if_pos hc, listMax, List.getD_cons_succ]
        rw [ih]
        exact (max_eq_right (le_of_lt hc)).symm
      · simp only [argmaxIdx, if_neg hc, listMax, List.getD_cons_zero]
        exact (max_eq_left (not_lt.mp hc)).symm

/-- The branch test `std_interval / (mean_interval + 1e-10) < 0.15` of
`detect_time_signature`, in exact squared form: `v` is the variance
(`std²`) and `d` the shifted mean.  For `d > 0` the test is equivalent to
`400 * v < 9 * d²`; for `d < 0` the quotient is nonpositive, hence `< 0.15`;
for `d = 0` numpy produces `inf`/`nan`, which compare `False`.
`cvLt_iff_sqrt` below proves the equivalence for `d ≠ 0`. -/
def cvLt (v d : ℚ) : Bool :=
  if 0 < d then decide (400 * v < 9 * d ^ 2) else decide (d < 0)

theorem cvLt_iff_sqrt (v d : ℚ) (hd : d ≠ 0) :
    cvLt v d = true ↔ Real.sqrt (v : ℝ) / (d : ℝ) < 3 / 20 := by
  rcases lt_trichotomy (d : ℚ) 0 with hneg | hzero | hpos
  · have hbool : cvLt v d = true := by
      simp [cvLt, hneg, not_lt.mpr (le_of_lt hneg)]
    have hR : (d : ℝ) < 0 := by exact_mod_cast hneg
    have hq : Real.sqrt (v : ℝ) / (d : ℝ) ≤ 0 :=
      div_nonpos_of_nonneg_of_nonpos (Real.sqrt_nonneg _) (le_of_lt hR)
    constructor
    · intro _; linarith
    · intro _; exact hbool
  · exact absurd hzero hd
  · have hR : (0 : ℝ) < (d : ℝ) := by exact_mod_cast hpos
    have h320 : (0 : ℝ) < 3 / 20 * (d : ℝ) := by positivity
    have hiff : Real.sqrt (v : ℝ) / (d : ℝ) < 3 / 20 ↔
        Real.sqrt (v : ℝ) < 3 / 20 * (d : ℝ) := div_lt_iff₀ hR
    rw [hiff, Real.sqrt_lt' h320]
    have hcast : ((400 * v < 9 * d ^ 2) ↔ ((v : ℝ) < (3 / 20 * (d : ℝ)) ^ 2)) := by
      rw [show ((3 : ℝ) / 20 * (d : ℝ)) ^ 2 = 9 / 400 * ((d : ℝ)) ^ 2 by ring]
      constructor
      · intro h
        have : (400 * (v : ℝ) < 9 * (d : ℝ) ^ 2) := by exact_mod_cast h
        linarith
      · intro h
        have : (400 * (v : ℝ) < 9 * (d : ℝ) ^ 2) := by linarith
        exact_mod_cast this
    simp [cvLt, hpos, hcast]

/-- Core of `detect_time_signature` (analyze_song.py lines 247-284), applied
to the inter-beat interval sequence.  `acl` is the second half of the full
autocorrelation, `acl[1:6]` is embedded as `(acl.take 6).drop 1` and
`acl[1:10]` as `(acl.take 10).drop 1`. -/
def timeSigCore (iv : List ℚ) : String × ℚ :=
  if cvLt (varP iv) (qMean iv + 1e-10) then ("4/4", 0.8)
  else if 12 ≤ iv.length then
    let acl := (List.range iv.length).map (acorr iv)
    if 6 < acl.length then
      if acl.getD 3 0 > 0.7 * listMax ((acl.take 6).drop 1) then ("3/4", 0.7)
      else if 6 < acl.length ∧ acl.getD 6 0 > 0.7 * listMax ((acl.take 10).drop 1) then
        ("6/8", 0.7)
      else ("4/4", 0.6)
    else ("4/4", 0.6)
  else ("4/4", 0.6)

/-- `detect_time_signature` (analyze_song.py lines 240-286).  The `tempo`
argument of the Python function is unused there and omitted; the enclosing
`except` clause is dead code over exact arithmetic (no operation raises for
`len(beat_times) ≥ 8`). -/
def detect_time_signature (beat_times : List ℚ) : String × ℚ :=
  if beat_times.length < 8 then ("4/4", 0.5)
  else timeSigCore (diffs beat_times)

/-- The time-signature decision exactly as claim C1 words it: no minimum
interval count is required before the autocorrelation tests.  The CV test is
embedded by the same `cvLt` as the code's, so the only difference from
`detect_time_signature` is the missing 12-interval guard. -/
def timeSigClaimC1 (beat_times : List ℚ) : String × ℚ :=
  if beat_times.length < 8 then ("4/4", 0.5)
  else
    let iv := diffs beat_times
    if cvLt (varP iv) (qMean iv + 1e-10) then ("4/4", 0.8)
    else if acorr iv 3 > 0.7 * listMax [acorr iv 1, acorr iv 2, acorr iv 3,
        acorr iv 4, acorr iv 5] then ("3/4", 0.7)
    else if acorr iv 6 > 0.7 * listMax [acorr iv 1, acorr iv 2, acorr iv 3, acorr iv 4,
        acorr iv 5, acorr iv 6, acorr iv 7, acorr iv 8, acorr iv 9] then ("6/8", 0.7)
    else ("4/4", 0.6)

/-- The amended time-signature decision: as claim C1, but the two
autocorrelation tests additionally require at least 12 inter-beat
intervals (at least 13 beats). -/
def timeSigAmendedC1 (beat_times : List ℚ) : String × ℚ :=
  if beat_times.length < 8 then ("4/4", 0.5)
  else
    let iv := diffs beat_times
    if cvLt (varP iv) (qMean iv + 1e-10) then ("4/4", 0.8)
    else if 12 ≤ iv.length ∧ acorr iv 3 > 0.7 * listMax [acorr iv 1, acorr iv 2,
        acorr iv 3, acorr iv 4, acorr iv 5] then ("3/4", 0.7)
    else if 12 ≤ iv.length ∧ acorr iv 6 > 0.7 * listMax [acorr iv 1, acorr iv 2,
        acorr iv 3, acorr iv 4, acorr iv 5, acorr iv 6, acorr iv 7, acorr iv 8,
        acorr iv 9] then ("6/8", 0.7)
    else ("4/4", 0.6)

theorem range_map_getD (f : ℕ → ℚ) {n k : ℕ} (h : k < n) :
    ((List.range n).map f).getD k 0 = f k := by
  have hlen : k < ((List.range n).map f).length := by simpa using h
  rw [List.getD_eq_getElem _ _ hlen]
  simp

theorem range_map_slice (f : ℕ → ℚ) {n : ℕ} (b a : ℕ) (h : b ≤ n) :
    (((List.range n).map f).take b).drop a = ((List.range b).drop a).map f := by
  rw [← List.map_take, List.take_range, show b ⊓ n = b from min_eq_left h, ← List.map_drop]

theorem timeSigCore_cases (iv : List ℚ) :
    timeSigCore iv =
      if cvLt (varP iv) (qMean iv + 1e-10) then ("4/4", 0.8)
      else if 12 ≤ iv.length ∧ acorr iv 3 > 0.7 * listMax [acorr iv 1, acorr iv 2,
          acorr iv 3, acorr iv 4, acorr iv 5] then ("3/4", 0.7)
      else if 12 ≤ iv.length ∧ acorr iv 6 > 0.7 * listMax [acorr iv 1, acorr iv 2,
          acorr iv 3, acorr iv 4, acorr iv 5, acorr iv 6, acorr iv 7, acorr iv 8,
          acorr iv 9] then ("6/8", 0.7)
      else ("4/4", 0.6) := by
  unfold timeSigCore
  by_cases hcv : cvLt (varP iv) (qMean iv + 1e-10) = true
  · simp [hcv]
  · by_cases h12 : 12 ≤ iv.length
    · have h6 : 6 < ((List.range iv.length).map (acorr iv)).length := by
        simpa using (by omega : 6 < iv.length)
      have hg3 : ((List.range iv.length).map (acorr iv)).getD 3 0 = acorr iv 3 :=
        range_map_getD _ (by omega)
      have hg6 : ((List.range iv.length).map (acorr iv)).getD 6 0 = acorr iv 6 :=
        range_map_getD _ (by omega)
      have hs5 : ((((List.range iv.length).map (acorr iv)).take 6).drop 1)
          = [acorr iv 1, acorr iv 2, acorr iv 3, acorr iv 4, acorr iv 5] := by
        rw [range_map_slice _ 6 1 (by omega)]
        rfl
      have hs9 : ((((List.range iv.length).map (acorr iv)).take 10).drop 1)
          = [acorr iv 1, acorr iv 2, acorr iv 3, acorr iv 4, acorr iv 5, acorr iv 6,
             acorr iv 7, acorr iv 8, acorr iv 9] := by
        rw [range_map_slice _ 10 1 (by omega)]
        rfl
      simp only [hcv, Bool.false_eq_true, if_false, h12, if_pos, true_and, hg3, hg6,
        hs5, hs9, h6, if_true]
    · simp [hcv, h12]

/-- C1: the time-signature decision procedure as the claim states it is wrong
on the code: the code runs the lag-3 / lag-6 autocorrelation tests only when
there are at least 12 inter-beat intervals.  Amended statement, proved here:
`detect_time_signature` equals the claim's case analysis with that extra
guard added, and it is a deterministic function of the inter-beat interval
sequence alone. -/
theorem detect_time_signature_amended :
    (∀ bt : List ℚ, detect_time_signature bt = timeSigAmendedC1 bt) ∧
    (∀ l₁ l₂ : List ℚ, diffs l₁ = diffs l₂ →
      detect_time_signature l₁ = detect_time_signature l₂) := by
  constructor
  · intro bt
    unfold detect_time_signature timeSigAmendedC1
    by_cases h8 : bt.length < 8
    · simp [h8]
    · simp only [if_neg h8]
      exact timeSigCore_cases (diffs bt)
  · intro l₁ l₂ h
    have hlen : ∀ l : List ℚ, (diffs l).length = l.length - 1 := by
      intro l
      simp only [diffs, List.length_zipWith, List.length_tail]
      omega
    unfold detect_time_signature
    by_cases h1 : l₁.length < 8 <;> by_cases h2 : l₂.length < 8
    · simp [h1, h2]
    · exfalso
      have e1 := hlen l₁
      have e2 := hlen l₂
      rw [h, e2] at e1
      omega
    · exfalso
      have e1 := hlen l₁
      have e2 := hlen l₂
      rw [h, e2] at e1
      omega
    · simp only [if_neg h1, if_neg h2, h]

/-- The 8-beat sequence whose 7 inter-beat intervals `[2,1,1,2,1,1,2]` have a
coefficient of variation above 0.15 and a dominant lag-3 autocorrelation. -/
def exBeatsC1 : List ℚ := [0, 2, 3, 4, 6, 7, 8, 10]

/-- C1 counterexample: on `exBeatsC1` the claim's case analysis yields
`("3/4", 0.7)` (the lag-3 autocorrelation 10 exceeds 70% of the lags-1..5
maximum 10), but the code returns `("4/4", 0.6)` because only 7 intervals
are available and the autocorrelation branch needs 12. -/
theorem detect_time_signature_claim_counterexample :
    detect_time_signature exBeatsC1 = ("4/4", 0.6) ∧
    timeSigClaimC1 exBeatsC1 = ("3/4", 0.7) ∧
    (("4/4", (0.6 : ℚ)) : String × ℚ) ≠ ("3/4", 0.7) := by
  refine ⟨by with_unfolding_all rfl, by with_unfolding_all rfl, by simp⟩

/-- C1 witness: the amended theorem applied at concrete inputs. -/
theorem detect_time_signature_amended_witness :
    diffs [(0 : ℚ), 1, 2] = diffs [(5 : ℚ), 6, 7] ∧
    detect_time_signature [(0 : ℚ), 1, 2] = detect_time_signature [(5 : ℚ), 6, 7] ∧
    detect_time_signature [(0 : ℚ), 1, 2] = timeSigAmendedC1 [(0 : ℚ), 1, 2] :=
  ⟨by with_unfolding_all rfl,
   detect_time_signature_amended.2 _ _ (by with_unfolding_all rfl),
   detect_time_signature_amended.1 _⟩

/-- Pitch-class names (analyze_song.py line 14). -/
def ROOTS : List String :=
  ["C", "C#", "D", "D#", "E", "F"] ++ ["F#", "G", "G#", "A", "A#", "B"]

/-- Major-triad template rooted at pitch class `i` (lines 19-26). -/
def majorT (i : ℕ) : List ℚ :=
  ((((List.replicate 12 (0 : ℚ)).set i 1).set ((i + 4) % 12) 0.9).set
    ((i + 7) % 12) 0.85).set ((i + 11) % 12) 0.25

/-- Minor-triad template (lines 29-36). -/
def minorT (i : ℕ) : List ℚ :=
  ((((List.replicate 12 (0 : ℚ)).set i 1).set ((i + 3) % 12) 0.9).set
    ((i + 7) % 12) 0.85).set ((i + 10) % 12) 0.2

/-- Dominant-7th template (lines 39-46). -/
def dom7T (i : ℕ) : List ℚ :=
  ((((List.replicate 12 (0 : ℚ)).set i 1).set ((i + 4) % 12) 0.85).set
    ((i + 7) % 12) 0.8).set ((i + 10) % 12) 0.75

/-- Major-7th template (lines 49-56). -/
def maj7T (i : ℕ) : List ℚ :=
  ((((List.replicate 12 (0 : ℚ)).set i 1).set ((i + 4) % 12) 0.85).set
    ((i + 7) % 12) 0.8).set ((i + 11) % 12) 0.7

/-- Minor-7th template (lines 59-66). -/
def min7T (i : ℕ) : List ℚ :=
  ((((List.replicate 12 (0 : ℚ)).set i 1).set ((i + 3) % 12) 0.85).set
    ((i + 7) % 12) 0.8).set ((i + 10) % 12) 0.75

/-- Sus4 template (lines 69-75). -/
def sus4T (i : ℕ) : List ℚ :=
  (((List.replicate 12 (0 : ℚ)).set i 1).set ((i + 5) % 12) 0.9).set ((i + 7) % 12) 0.85

/-- The 72-row template bank `TEMPLATE_MATRIX` (line 77), in source order:
major, minor, dominant-7th, major-7th, minor-7th, sus4. -/
def TEMPLATE_MATRIX : List (List ℚ) :=
  (List.range 12).map majorT ++ (List.range 12).map minorT ++ (List.range 12).map dom7T
    ++ (List.range 12).map maj7T ++ (List.range 12).map min7T ++ (List.range 12).map sus4T

/-- The 72 chord labels, in the same order as `TEMPLATE_MATRIX`. -/
def LABELS : List String :=
  (List.range 12).map (fun i => ROOTS.getD i "C")
    ++ (List.range 12).map (fun i => ROOTS.getD i "C" ++ "m")
    ++ (List.range 12).map (fun i => ROOTS.getD i "C" ++ "7")
    ++ (List.range 12).map (fun i => ROOTS.getD i "C" ++ "maj7")
    ++ (List.range 12).map (fun i => ROOTS.getD i "C" ++ "m7")
    ++ (List.range 12).map (fun i => ROOTS.getD i "C" ++ "sus4")

/-- Dot product (`TEMPLATE_MATRIX @ cf`, row-wise). -/
def dotQ (a b : List ℚ) : ℚ := qSum (List.zipWith (· * ·) a b)

/-- Characters of `s` strictly before the first occurrence of `pat`:
Python `s.split(pat)[0]`. -/
def beforeFirst : List Char → List Char → List Char
  | [], _ => []
  | c :: rest, pat => if pat.isPrefixOf (c :: rest) then [] else c :: beforeFirst rest pat

/-- Python substring test `pat in s`. -/
def hasSub (s pat : List Char) : Bool :=
  match s with
  | [] => pat.isEmpty
  | _ :: rest => pat.isPrefixOf s || hasSub rest pat

/-- Python `pat in s` on strings. -/
def containsS (s pat : String) : Bool := hasSub s.toList pat.toList

/-- `root_map` (lines 150-151). -/
def root_map : List (String × ℤ) :=
  [("C", 0), ("C#", 1), ("D", 2), ("D#", 3), ("E", 4), ("F", 5), ("F#", 6), ("G", 7),
   ("G#", 8), ("A", 9), ("A#", 10), ("B", 11)]

/-- `best_label.split('m')[0].split('7')[0].split('sus')[0]` (line 152). -/
def rootStr (label : String) : String :=
  String.mk (beforeFirst (beforeFirst (beforeFirst label.toList ['m']) ['7']) ['s', 'u', 's'])

/-- `root_map.get(root_str, 0)` (line 153). -/
def rootOf (label : String) : ℤ := (root_map.lookup (rootStr label)).getD 0

/-- Quality determination from the winning label (lines 176-187). -/
def qualityOf (label : String) : String :=
  if containsS label "maj7" then "major7"
  else if containsS label "m7" then "minor7"
  else if containsS label "7" && !containsS label "maj" then "dominant7"
  else if containsS label "sus" then "suspended"
  else if containsS label "m" then "minor"
  else "major"

/-- `estimate_chord_enhanced` (lines 135-189).  `qsqrt` abstracts the real
square root inside `np.linalg.norm` (the only non-rational operation); every
theorem below quantifies over it or never reaches it.  The zero-norm test
`np.linalg.norm(chroma_frame) == 0` is embedded as `sumSq chroma_frame = 0`,
which is exactly equivalent.  Return value: (label, confidence, quality,
inversion), with `none` inversion on the no-chord branch (Python `None`). -/
def estimate_chord_enhanced (qsqrt : ℚ → ℚ) (chroma_frame : List ℚ)
    (bass_pitch_class : Option ℤ) : String × ℚ × String × Option ℤ :=
  if sumSq chroma_frame = 0 then ("N", 0, "unknown", none)
  else
    let norm := qsqrt (sumSq chroma_frame)
    let cf := chroma_frame.map (· / norm)
    let scores := TEMPLATE_MATRIX.map (fun t => dotQ t cf)
    let best_idx := argmaxIdx scores
    let best_score := scores.getD best_idx 0
    let best_label := LABELS.getD best_idx "C"
    let root_pitch_class := rootOf best_label
    let inversion : ℤ :=
      match bass_pitch_class with
      | none => 0
      | some b =>
        if b ≠ root_pitch_class then
          if (b - root_pitch_class) % 12 = 3 ∨ (b - root_pitch_class) % 12 = 4 then 1
          else if (b - root_pitch_class) % 12 = 7 then 2
          else if (b - root_pitch_class) % 12 = 10 ∨ (b - root_pitch_class) % 12 = 11 then 3
          else 0
        else 0
    (best_label, min 1 (max 0 best_score), qualityOf best_label, some inversion)

/-- The inversion mapping exactly as claim C6 words it. -/
def inversionClaimMap (bass : Option ℤ) (root : ℤ) : ℤ :=
  match bass with
  | none => 0
  | some b =>
    if b = root then 0
    else if (b - root) % 12 = 3 ∨ (b - root) % 12 = 4 then 1
    else if (b - root) % 12 = 7 then 2
    else if (b - root) % 12 = 10 ∨ (b - root) % 12 = 11 then 3
    else 0

/-- Window bounds of `detect_bass_note` (lines 86-89):
`window_size = int(0.2*sr)`, `center_sample = int(timestamp*sr)`,
`start = max(0, center - window_size//2)`, `stop = min(len(y_perc), center + window_size//2)`. -/
def windowStartStop (yPercLen sr : ℕ) (timestamp : ℚ) : ℤ × ℤ :=
  (max 0 (intTrunc (timestamp * sr) - intTrunc ((sr : ℚ) / 5) / 2),
   min (yPercLen : ℤ) (intTrunc (timestamp * sr) + intTrunc ((sr : ℚ) / 5) / 2))

/-- Indices of the rfft bins of an `n`-sample window whose frequency
`k * sr / n` (`np.fft.rfftfreq(n, 1/sr)[k]`) lies in the 40-200 Hz bass band
(line 105). -/
def bassBins (n sr : ℕ) : List ℕ :=
  (List.range (n / 2 + 1)).filter (fun k =>
    decide ((40 : ℚ) ≤ ((k * sr : ℕ) : ℚ) / (n : ℚ)) &&
      decide (((k * sr : ℕ) : ℚ) / (n : ℚ) ≤ 200))

/-- `detect_bass_note` (lines 80-132).  The two external numeric kernels are
oracle parameters: `mag k` is the FFT magnitude `abs(rfft(filtfilt(bandpassed
window)))[k]` of bin `k` (so `0 ≤ mag k` always holds for the real function),
and `midiRound f` is `int(round(12*log2(f/440) + 69))`.  Everything else -
window arithmetic, band masking, peak selection, the two threshold tests and
the final `% 12` - is embedded exactly.  The `np.any(bass_range)` test and
the `len(bass_fft) == 0` test are the same condition (`bassBins ... = []`). -/
def detect_bass_note (yPercLen sr : ℕ) (timestamp : ℚ) (mag : ℕ → ℚ)
    (midiRound : ℚ → ℤ) : Option ℤ :=
  if (windowStartStop yPercLen sr timestamp).2 ≤ (windowStartStop yPercLen sr timestamp).1 then
    none
  else
    let n := ((windowStartStop yPercLen sr timestamp).2
      - (windowStartStop yPercLen sr timestamp).1).toNat
    let bins := bassBins n sr
    if bins = [] then none
    else
      let bass_fft := bins.map mag
      let peak_idx := argmaxIdx bass_fft
      if bass_fft.getD peak_idx 0 < 0.3 * listMax bass_fft then none
      else
        let peak_freq : ℚ := ((bins.getD peak_idx 0 * sr : ℕ) : ℚ) / (n : ℚ)
        if peak_freq < 30 then none
        else some (midiRound peak_freq % 12)

/-- One chord event of analyze_song.py's emission loop (lines 679-688); the
`chord_inversion` field is `int(inversion) if inversion is not None else 0`
and `bass_pitch_class` is kept optional.  The constant fields
`event_type = 'chord_candidate'` and `source = 'PY_Enhanced_Bass'` are
omitted. -/
structure ChordEvent where
  timestamp : ℚ
  chord : String
  chord_quality : String
  chord_inversion : ℤ
  bass_pitch_class : Option ℤ
  confidence : ℚ
deriving DecidableEq

/-- The chord-candidate emission loop of `analyze` (lines 661-688), as a
recursion over the beat-aligned chroma frames with the running index `i` and
the `last_label` state.  `bassOf i` stands for
`detect_bass_note(y_perc, sr, beat_times[i])` and the `i >= len(beat_times)`
break is the leading guard. -/
def chordLoop (qsqrt : ℚ → ℚ) (bassOf : ℕ → Option ℤ) (beat_times : List ℚ) :
    List (List ℚ) → ℕ → Option String → List ChordEvent
  | [], _, _ => []
  | f :: fs, i, last_label =>
    if beat_times.length ≤ i then []
    else if last_label = some (estimate_chord_enhanced qsqrt f (bassOf i)).1 ∧
        (estimate_chord_enhanced qsqrt f (bassOf i)).2.1 < 0.7 then
      chordLoop qsqrt bassOf beat_times fs (i + 1) last_label
    else
      { timestamp := beat_times.getD i 0
        chord := (estimate_chord_enhanced qsqrt f (bassOf i)).1
        chord_quality := (estimate_chord_enhanced qsqrt f (bassOf i)).2.2.1
        chord_inversion := ((estimate_chord_enhanced qsqrt f (bassOf i)).2.2.2).getD 0
        bass_pitch_class := bassOf i
        confidence := (estimate_chord_enhanced qsqrt f (bassOf i)).2.1 } ::
        chordLoop qsqrt bassOf beat_times fs (i + 1)
          (some (estimate_chord_enhanced qsqrt f (bassOf i)).1)

/-- The chord events emitted by `analyze` for the given beat-aligned chroma
frames, beat timestamps and per-beat bass pitch classes. -/
def chordEvents (qsqrt : ℚ → ℚ) (frames : List (List ℚ)) (beat_times : List ℚ)
    (bassOf : ℕ → Option ℤ) : List ChordEvent :=
  chordLoop qsqrt bassOf beat_times frames 0 none

/-- C4: a 12-bin chroma frame with zero total energy yields the no-chord
label "N" with confidence exactly 0 (and quality "unknown", no inversion).
`sumSq frame = 0` is exactly the code's `np.linalg.norm(chroma_frame) == 0`. -/
theorem estimate_chord_zero_energy (qsqrt : ℚ → ℚ) (frame : List ℚ) (b : Option ℤ)
    (h : sumSq frame = 0) :
    estimate_chord_enhanced qsqrt frame b = ("N", 0, "unknown", none) := by
  simp [estimate_chord_enhanced, h]

/-- C4 witness: the all-zero frame. -/
theorem estimate_chord_zero_energy_witness :
    sumSq (List.replicate 12 (0 : ℚ)) = 0 ∧
    estimate_chord_enhanced (fun _ => 0) (List.replicate 12 (0 : ℚ)) none
      = ("N", 0, "unknown", none) :=
  ⟨by with_unfolding_all rfl,
   estimate_chord_zero_energy _ _ _ (by with_unfolding_all rfl)⟩

/-- C6: for every chord estimation on a frame with nonzero energy, the
returned inversion is exactly the claim's interval mapping relative to the
root of the winning label; the mapping always lands in {0,1,2,3} and is 0
when the bass is absent or equals the root; a bass pitch class returned by
`detect_bass_note` is always in [0,11]; and the code's label-splitting root
extraction recovers the true root pitch class of each of the 72 labels. -/
theorem chord_inversion_spec :
    (∀ (qsqrt : ℚ → ℚ) (frame : List ℚ) (b : Option ℤ), sumSq frame ≠ 0 →
      (estimate_chord_enhanced qsqrt frame b).2.2.2 =
        some (inversionClaimMap b (rootOf (estimate_chord_enhanced qsqrt frame b).1))) ∧
    (∀ (b : Option ℤ) (r : ℤ),
      inversionClaimMap b r ∈ ([0, 1, 2, 3] : List ℤ) ∧
      ((b = none ∨ b = some r) → inversionClaimMap b r = 0)) ∧
    (∀ (yPercLen sr : ℕ) (ts : ℚ) (mag : ℕ → ℚ) (mr : ℚ → ℤ) (p : ℤ),
      detect_bass_note yPercLen sr ts mag mr = some p → 0 ≤ p ∧ p ≤ 11) ∧
    (∀ i : ℕ, i < 72 → rootOf (LABELS.getD i "C") = (i : ℤ) % 12) := by
  refine ⟨?_, ?_, ?_, ?_⟩
  · intro qsqrt frame b h
    simp only [estimate_chord_enhanced, if_neg h]
    cases b with
    | none => simp [inversionClaimMap]
    | some b =>
      by_cases hb : b = rootOf (LABELS.getD (argmaxIdx (TEMPLATE_MATRIX.map (fun t =>
          dotQ t (frame.map (· / qsqrt (sumSq frame)))))) "C")
      · simp [inversionClaimMap, hb]
      · simp [inversionClaimMap, hb]
  · intro b r
    cases b with
    | none => simp [inversionClaimMap]
    | some b =>
      constructor
      · simp only [inversionClaimMap]
        split_ifs <;> simp
      · rintro (h | h)
        · exact absurd h (by simp)
        · have hbr : b = r := Option.some.inj h
          simp [inversionClaimMap, hbr]
  · intro yl sr ts mag mr p h
    simp only [detect_bass_note] at h
    split at h
    · exact absurd h (by simp)
    · split at h
      · exact absurd h (by simp)
      · split at h
        · exact absurd h (by simp)
        · split at h
          · exact absurd h (by simp)
          · have hp := Option.some.inj h
            omega
  · decide

/-- C6 witness: the theorem applied at concrete inputs — a one-hot frame with
bass pitch class 4, a concrete bass-note query, and label index 13 ("C#m"). -/
theorem chord_inversion_spec_witness :
    sumSq [(1 : ℚ), 0, 0, 0, 0, 0, 0, 0, 0, 0, 0, 0] ≠ 0 ∧
    (estimate_chord_enhanced (fun _ => 1) [(1 : ℚ), 0, 0, 0, 0, 0, 0, 0, 0, 0, 0, 0]
        (some 4)).2.2.2
      = some (inversionClaimMap (some 4)
          (rootOf (estimate_chord_enhanced (fun _ => 1)
            [(1 : ℚ), 0, 0, 0, 0, 0, 0, 0, 0, 0, 0, 0] (some 4)).1)) ∧
    inversionClaimMap (some 4) 0 ∈ ([0, 1, 2, 3] : List ℤ) ∧
    detect_bass_note 120 22050 0 (fun _ => 0) (fun _ => 0) = some 0 ∧
    (0 : ℤ) ≤ 0 ∧ (0 : ℤ) ≤ 11 ∧
    rootOf (LABELS.getD 13 "C") = (13 : ℤ) % 12 := by
  have hne : sumSq [(1 : ℚ), 0, 0, 0, 0, 0, 0, 0, 0, 0, 0, 0] ≠ 0 := by
    with_unfolding_all decide
  have hdet : detect_bass_note 120 22050 0 (fun _ => 0) (fun _ => 0) = some 0 := by
    with_unfolding_all rfl
  exact ⟨hne, chord_inversion_spec.1 _ _ _ hne, (chord_inversion_spec.2.1 (some 4) 0).1,
    hdet, (chord_inversion_spec.2.2.1 _ _ _ _ _ _ hdet).1,
    (chord_inversion_spec.2.2.1 _ _ _ _ _ _ hdet).2,
    chord_inversion_spec.2.2.2 13 (by decide)⟩

theorem bassBins_freq_ge {n sr k : ℕ} (h : k ∈ bassBins n sr) :
    (40 : ℚ) ≤ ((k * sr : ℕ) : ℚ) / (n : ℚ) := by
  have hp := (List.mem_filter.mp h).2
  simp only [Bool.and_eq_true, decide_eq_true_eq] at hp
  exact hp.1

theorem bass_tests_pass (n sr : ℕ) (mag : ℕ → ℚ)
    (hne : bassBins n sr ≠ []) (hmag : ∀ k, 0 ≤ mag k) :
    ¬ (((bassBins n sr).map mag).getD (argmaxIdx ((bassBins n sr).map mag)) 0
        < 0.3 * listMax ((bassBins n sr).map mag)) ∧
    ¬ (((((bassBins n sr).getD (argmaxIdx ((bassBins n sr).map mag)) 0) * sr : ℕ) : ℚ)
        / (n : ℚ) < 30) := by
  have hfft_ne : (bassBins n sr).map mag ≠ [] := by
    intro hc
    exact hne (List.map_eq_nil_iff.mp hc)
  have hmax : ((bassBins n sr).map mag).getD (argmaxIdx ((bassBins n sr).map mag)) 0
      = listMax ((bassBins n sr).map mag) := getD_argmaxIdx hfft_ne
  have hnonneg : 0 ≤ listMax ((bassBins n sr).map mag) := by
    obtain ⟨b0, t, hb⟩ : ∃ b0 t, bassBins n sr = b0 :: t := by
      cases hbb : bassBins n sr with
      | nil => exact absurd hbb hne
      | cons b0 t => exact ⟨b0, t, rfl⟩
    have hm : mag b0 ∈ (bassBins n sr).map mag := by
      rw [hb]
      simp
    exact le_trans (hmag b0) (le_listMax hm)
  constructor
  · rw [hmax]
    intro hlt
    have : (0.3 : ℚ) * listMax ((bassBins n sr).map mag)
        ≤ listMax ((bassBins n sr).map mag) := by nlinarith
    linarith
  · have hlt : argmaxIdx ((bassBins n sr).map mag) < (bassBins n sr).length := by
      have h := argmaxIdx_lt_length hfft_ne
      simpa using h
    have hmem : (bassBins n sr).getD (argmaxIdx ((bassBins n sr).map mag)) 0 ∈ bassBins n sr := by
      rw [List.getD_eq_getElem _ _ hlt]
      exact List.getElem_mem _
    have h40 := bassBins_freq_ge hmem
    intro hc
    linarith

/-- C10: the two rejection tests in `detect_bass_note` are unreachable — the
selected peak is the maximum of the 40-200 Hz band so the 30%-of-maximum test
cannot fail, and every band frequency is ≥ 40 Hz so the `< 30 Hz` test cannot
fail; hence the function returns `none` exactly when the analysis window is
empty or no FFT bin falls in the band (in particular an all-zero window still
yields a pitch class). -/
theorem detect_bass_note_none_iff (yPercLen sr : ℕ) (ts : ℚ) (mag : ℕ → ℚ) (mr : ℚ → ℤ)
    (hmag : ∀ k, 0 ≤ mag k) :
    detect_bass_note yPercLen sr ts mag mr = none ↔
      (windowStartStop yPercLen sr ts).2 ≤ (windowStartStop yPercLen sr ts).1 ∨
      bassBins ((windowStartStop yPercLen sr ts).2
        - (windowStartStop yPercLen sr ts).1).toNat sr = [] := by
  by_cases h1 : (windowStartStop yPercLen sr ts).2 ≤ (windowStartStop yPercLen sr ts).1
  · simp [detect_bass_note, h1]
  · by_cases h2 : bassBins ((windowStartStop yPercLen sr ts).2
        - (windowStartStop yPercLen sr ts).1).toNat sr = []
    · simp [detect_bass_note, h1, h2]
    · obtain ⟨ht1, ht2⟩ := bass_tests_pass
        ((windowStartStop yPercLen sr ts).2 - (windowStartStop yPercLen sr ts).1).toNat
        sr mag h2 hmag
      simp only [detect_bass_note, if_neg h1, if_neg h2, if_neg ht1, if_neg ht2]
      exact iff_of_false (by simp) (fun h => h.elim h1 h2)

/-- C10 witness: a 120-sample window at 22050 Hz has exactly one band bin, so
even the all-zero magnitude oracle yields a pitch class. -/
theorem detect_bass_note_none_iff_witness :
    (∀ k : ℕ, (0 : ℚ) ≤ (fun _ => (0 : ℚ)) k) ∧
    (detect_bass_note 120 22050 0 (fun _ => 0) (fun _ => 0) = none ↔
      (windowStartStop 120 22050 0).2 ≤ (windowStartStop 120 22050 0).1 ∨
      bassBins ((windowStartStop 120 22050 0).2
        - (windowStartStop 120 22050 0).1).toNat 22050 = []) :=
  ⟨fun _ => le_refl 0,
   detect_bass_note_none_iff 120 22050 0 (fun _ => 0) (fun _ => 0) (fun _ => le_refl 0)⟩

theorem qualityOf_mem_six (s : String) :
    qualityOf s ∈ ["major", "minor", "dominant7", "major7", "minor7", "suspended"] := by
  unfold qualityOf
  split_ifs <;> simp

theorem estimate_quality_cases (qsqrt : ℚ → ℚ) (f : List ℚ) (b : Option ℤ) :
    ((estimate_chord_enhanced qsqrt f b).2.2.1 = "unknown" ∧
      (estimate_chord_enhanced qsqrt f b).1 = "N") ∨
    (estimate_chord_enhanced qsqrt f b).2.2.1
      ∈ ["major", "minor", "dominant7", "major7", "minor7", "suspended"] := by
  by_cases h : sumSq f = 0
  · left
    simp [estimate_chord_enhanced, h]
  · right
    simp only [estimate_chord_enhanced, if_neg h]
    exact qualityOf_mem_six _

theorem chordLoop_quality (qsqrt : ℚ → ℚ) (bassOf : ℕ → Option ℤ) (bts : List ℚ) :
    ∀ (frames : List (List ℚ)) (i : ℕ) (last : Option String) (e : ChordEvent),
      e ∈ chordLoop qsqrt bassOf bts frames i last →
      e.chord_quality
          ∈ ["major", "minor", "dominant7", "major7", "minor7", "suspended", "unknown"] ∧
      (e.chord_quality = "unknown" → e.chord = "N") := by
  intro frames
  induction frames with
  | nil =>
    intro i last e h
    simp [chordLoop] at h
  | cons f fs ih =>
    intro i last e h
    rw [chordLoop] at h
    by_cases hlen : bts.length ≤ i
    · rw [if_pos hlen] at h
      simp at h
    · rw [if_neg hlen] at h
      by_cases hskip : last = some (estimate_chord_enhanced qsqrt f (bassOf i)).1 ∧
          (estimate_chord_enhanced qsqrt f (bassOf i)).2.1 < 0.7
      · rw [if_pos hskip] at h
        exact ih _ _ _ h
      · rw [if_neg hskip] at h
        rcases List.mem_cons.mp h with rfl | h'
        · rcases estimate_quality_cases qsqrt f (bassOf i) with ⟨hu, hn⟩ | hsix
          · exact ⟨by simp [hu], fun _ => hn⟩
          · constructor
            · simp only [List.mem_cons] at hsix ⊢
              tauto
            · intro hq
              rcases estimate_quality_cases qsqrt f (bassOf i) with ⟨_, hn⟩ | hsix'
              · exact hn
              · have hq' : (estimate_chord_enhanced qsqrt f (bassOf i)).2.2.1 = "unknown" := hq
                rw [hq'] at hsix'
                simp at hsix'
        · exact ih _ _ _ h'

/-- C8 amended: every emitted chord event's quality is one of the six enum
values or the additional value "unknown"; the value "unknown" occurs exactly
on zero-energy frames, whose chord label is "N". -/
theorem chord_event_quality_amended (qsqrt : ℚ → ℚ) (frames : List (List ℚ))
    (bts : List ℚ) (bassOf : ℕ → Option ℤ) (e : ChordEvent)
    (h : e ∈ chordEvents qsqrt frames bts bassOf) :
    e.chord_quality
        ∈ ["major", "minor", "dominant7", "major7", "minor7", "suspended", "unknown"] ∧
    (e.chord_quality = "unknown" → e.chord = "N") :=
  chordLoop_quality qsqrt bassOf bts frames 0 none e h

/-- The chord event produced by a zero-energy beat-aligned frame. -/
def zeroChordEvent : ChordEvent :=
  { timestamp := 0, chord := "N", chord_quality := "unknown", chord_inversion := 0,
    bass_pitch_class := none, confidence := 0 }

/-- C8 counterexample: a zero-energy beat-aligned frame is emitted as a chord
event whose quality is "unknown", which is outside the claimed six-value
enum. -/
theorem chord_event_quality_counterexample :
    chordEvents (fun _ => 0) [List.replicate 12 (0 : ℚ)] [0] (fun _ => none) =
      [zeroChordEvent] ∧
    zeroChordEvent.chord_quality = "unknown" ∧
    "unknown" ∉ ["major", "minor", "dominant7", "major7", "minor7", "suspended"] := by
  refine ⟨by with_unfolding_all rfl, rfl, by decide⟩

/-- C8 witness: the amended theorem applied to the concrete zero-energy
event. -/
theorem chord_event_quality_amended_witness :
    zeroChordEvent ∈
      chordEvents (fun _ => 0) [List.replicate 12 (0 : ℚ)] [0] (fun _ => none) ∧
    zeroChordEvent.chord_quality
        ∈ ["major", "minor", "dominant7", "major7", "minor7", "suspended", "unknown"] ∧
    (zeroChordEvent.chord_quality = "unknown" → zeroChordEvent.chord = "N") := by
  have hmem : zeroChordEvent ∈
      chordEvents (fun _ => 0) [List.replicate 12 (0 : ℚ)] [0] (fun _ => none) := by
    have hev : chordEvents (fun _ => 0) [List.replicate 12 (0 : ℚ)] [0] (fun _ => none) =
        [zeroChordEvent] := by
      with_unfolding_all rfl
    rw [hev]
    exact List.mem_singleton.mpr rfl
  exact ⟨hmem, (chord_event_quality_amended _ _ _ _ _ hmem).1,
    (chord_event_quality_amended _ _ _ _ _ hmem).2⟩

/-- Krumhansl-Schmuckler major profile (analyze_song.py line 200). -/
def major_profile : List ℚ :=
  [6.35, 2.23, 3.48, 2.33, 4.38, 4.09, 2.52, 5.19, 2.39, 3.66, 2.29, 2.88]

/-- Krumhansl-Schmuckler minor profile (line 201). -/
def minor_profile : List ℚ :=
  [6.33, 2.68, 3.52, 5.38, 2.60, 3.53, 2.54, 4.75, 3.98, 2.69, 3.34, 3.17]

/-- Profiles normalized by their sums (lines 204-205). -/
def major_profile_norm : List ℚ := major_profile.map (· / qSum major_profile)

/-- Minor profile normalized by its sum. -/
def minor_profile_norm : List ℚ := minor_profile.map (· / qSum minor_profile)

/-- `np.roll(p, shift)` on a 12-vector: entry `i` is `p[(i - shift) mod 12]`. -/
def rollQ (p : List ℚ) (s : ℕ) : List ℚ :=
  (List.range 12).map (fun i => p.getD ((i + 12 - s % 12) % 12) 0)

/-- Centered cross-sum `Σ (xᵢ - mean x) * (yᵢ - mean y)`; `csum x x` is the
(unnormalized) variance of `x`. -/
def csum (x y : List ℚ) : ℚ :=
  qSum (List.zipWith (fun a b => (a - qMean x) * (b - qMean y)) x y)

/-- `np.corrcoef(x, y)[0, 1]` composed with the code's NaN-to-zero mapping
(lines 212-221): the Pearson correlation is `csum x y / √(csum x x * csum y y)`
and is NaN exactly when one of the centered variances vanishes, in which case
the code substitutes 0.0.  `qsqrt` abstracts the real square root; it is never
reached on the degenerate branch that claim C5 concerns. -/
def corrOrZero (qsqrt : ℚ → ℚ) (x y : List ℚ) : ℚ :=
  if csum x x = 0 ∨ csum y y = 0 then 0
  else csum x y / qsqrt (csum x x * csum y y)

/-- `np.mean(chroma, axis=1)` (line 196): per-pitch-class mean over time. -/
def chromaMeanRows (chroma : List (List ℚ)) : List ℚ := chroma.map qMean

/-- `key_profile = chroma_mean / (np.sum(chroma_mean) + 1e-10)` (line 197). -/
def keyProfile (chroma : List (List ℚ)) : List ℚ :=
  (chromaMeanRows chroma).map (· / (qSum (chromaMeanRows chroma) + 1e-10))

/-- The 24-entry correlations list of `detect_key` (lines 208-222), in source
order: for each shift 0..11, first the major then the minor candidate. -/
def keyCorrelations (qsqrt : ℚ → ℚ) (chroma : List (List ℚ)) : List (String × ℕ × ℚ) :=
  (List.range 12).foldr (fun s acc =>
    ("major", s, corrOrZero qsqrt (keyProfile chroma) (rollQ major_profile_norm s)) ::
    ("minor", s, corrOrZero qsqrt (keyProfile chroma) (rollQ minor_profile_norm s)) :: acc) []

/-- Python `max(correlations, key=lambda x: x[2])`: first maximal element. -/
def pyMaxBy (l : List (String × ℕ × ℚ)) : String × ℕ × ℚ :=
  l.foldl (fun b x => if x.2.2 > b.2.2 then x else b) (l.headD ("major", 0, 0))

/-- `detect_key` (lines 192-237): best-correlating rotation/mode, confidence
mapped by `(corr + 1) / 2` and clamped to [0,1].  The `except` fallback
`('C', 'major', 0.5)` is unreachable over exact arithmetic and not modeled. -/
def detect_key (qsqrt : ℚ → ℚ) (chroma : List (List ℚ)) : String × String × ℚ :=
  (ROOTS.getD (pyMaxBy (keyCorrelations qsqrt chroma)).2.1 "C",
   (pyMaxBy (keyCorrelations qsqrt chroma)).1,
   max 0 (min 1 (((pyMaxBy (keyCorrelations qsqrt chroma)).2.2 + 1) / 2)))

theorem foldl_max_const (init : String × ℕ × ℚ) :
    ∀ l : List (String × ℕ × ℚ), (∀ x ∈ l, ¬ (x.2.2 > init.2.2)) →
      l.foldl (fun b x => if x.2.2 > b.2.2 then x else b) init = init
  | [], _ => rfl
  | x :: t, h => by
      have hx := h x (List.mem_cons_self _ _)
      rw [List.foldl_cons, if_neg hx]
      exact foldl_max_const init t (fun y hy => h y (List.mem_cons_of_mem _ hy))

theorem mem_interleave (a b : ℕ → String × ℕ × ℚ) :
    ∀ (l : List ℕ) (x : String × ℕ × ℚ),
      x ∈ l.foldr (fun s acc => a s :: b s :: acc) [] → ∃ s ∈ l, x = a s ∨ x = b s
  | [], x, h => by simp at h
  | s :: t, x, h => by
      simp only [List.foldr_cons, List.mem_cons] at h
      rcases h with rfl | rfl | h
      · exact ⟨s, List.mem_cons_self _ _, Or.inl rfl⟩
      · exact ⟨s, List.mem_cons_self _ _, Or.inr rfl⟩
      · obtain ⟨u, hu, hx⟩ := mem_interleave a b t x h
        exact ⟨u, List.mem_cons_of_mem _ hu, hx⟩

/-- C5: on a degenerate (constant, e.g. all-zero) time-averaged profile every
Pearson correlation is NaN, each is treated as zero, the maximum over 24
equal zero correlations selects the first candidate — C major — and the
confidence mapping yields exactly 0.5. -/
theorem detect_key_degenerate (qsqrt : ℚ → ℚ) (chroma : List (List ℚ))
    (h : csum (keyProfile chroma) (keyProfile chroma) = 0) :
    (∀ y : List ℚ, corrOrZero qsqrt (keyProfile chroma) y = 0) ∧
    detect_key qsqrt chroma = ("C", "major", 0.5) := by
  have hz : ∀ y : List ℚ, corrOrZero qsqrt (keyProfile chroma) y = 0 := by
    intro y
    simp [corrOrZero, h]
  refine ⟨hz, ?_⟩
  have hall : ∀ x ∈ keyCorrelations qsqrt chroma, x.2.2 = 0 := by
    intro x hx
    obtain ⟨s, _, hcase⟩ := mem_interleave _ _ (List.range 12) x hx
    rcases hcase with rfl | rfl
    · exact hz _
    · exact hz _
  have hhead : (keyCorrelations qsqrt chroma).headD ("major", 0, 0)
      = ("major", 0, corrOrZero qsqrt (keyProfile chroma) (rollQ major_profile_norm 0)) := rfl
  have hinit : ((keyCorrelations qsqrt chroma).headD ("major", 0, 0)).2.2 = 0 := by
    rw [hhead]
    exact hz _
  have hfold : pyMaxBy (keyCorrelations qsqrt chroma)
      = (keyCorrelations qsqrt chroma).headD ("major", 0, 0) := by
    unfold pyMaxBy
    refine foldl_max_const _ _ ?_
    intro x hx
    rw [hall x hx, hinit]
    exact lt_irrefl 0
  have hbest : pyMaxBy (keyCorrelations qsqrt chroma) = ("major", 0, 0) := by
    rw [hfold, hhead, hz]
  unfold detect_key
  rw [hbest]
  norm_num [ROOTS]

/-- C5 witness: the all-zero 12×2 chroma matrix. -/
theorem detect_key_degenerate_witness :
    csum (keyProfile (List.replicate 12 [(0 : ℚ), 0]))
      (keyProfile (List.replicate 12 [(0 : ℚ), 0])) = 0 ∧
    detect_key (fun _ => 0) (List.replicate 12 [(0 : ℚ), 0]) = ("C", "major", 0.5) := by
  have h0 : csum (keyProfile (List.replicate 12 [(0 : ℚ), 0]))
      (keyProfile (List.replicate 12 [(0 : ℚ), 0])) = 0 := by
    with_unfolding_all rfl
  exact ⟨h0, (detect_key_degenerate (fun _ => 0) _ h0).2⟩

/-- Return value of `extract_spectral_features` (analyze_song.py
lines 418-424). -/
structure SpectralFeatures where
  centroid : List ℚ
  rolloff : List ℚ
  bandwidth : List ℚ
  zero_crossing_rate : List ℚ
  timestamps : List ℚ
deriving DecidableEq

/-- `extract_spectral_features` (lines 407-432): the four librosa feature
sequences and the frame-time axis are external inputs; the repository's own
code computes `min_len = min(len(spectral_centroid), len(frame_times))` and
slices every sequence to `[:min_len]`.  The `except` branch (all-empty
result) is unreachable for the pure slicing code embedded here. -/
def extract_spectral_features (spectral_centroid spectral_rolloff spectral_bandwidth
    zero_crossing_rate frame_times : List ℚ) : SpectralFeatures :=
  { centroid := spectral_centroid.take (min spectral_centroid.length frame_times.length)
    rolloff := spectral_rolloff.take (min spectral_centroid.length frame_times.length)
    bandwidth := spectral_bandwidth.take (min spectral_centroid.length frame_times.length)
    zero_crossing_rate :=
      zero_crossing_rate.take (min spectral_centroid.length frame_times.length)
    timestamps := frame_times.take (min spectral_centroid.length frame_times.length) }

/-- C7: when the four librosa feature sequences have a common length (which
the library guarantees for a single signal and its fixed analysis hop), all
five returned sequences are truncated to the common shortest length
`min(len(centroid), len(frame_times))`, so every timestamp has a complete
feature tuple. -/
theorem extract_spectral_features_lengths (c r b z t : List ℚ)
    (hr : r.length = c.length) (hb : b.length = c.length) (hz : z.length = c.length) :
    (extract_spectral_features c r b z t).centroid.length = min c.length t.length ∧
    (extract_spectral_features c r b z t).rolloff.length = min c.length t.length ∧
    (extract_spectral_features c r b z t).bandwidth.length = min c.length t.length ∧
    (extract_spectral_features c r b z t).zero_crossing_rate.length
      = min c.length t.length ∧
    (extract_spectral_features c r b z t).timestamps.length = min c.length t.length := by
  simp only [extract_spectral_features, List.length_take]
  omega

/-- C7 witness: concrete sequences of lengths 2,2,2,2 and 1. -/
theorem extract_spectral_features_lengths_witness :
    ([(3 : ℚ), 4].length = [(1 : ℚ), 2].length) ∧
    ([(5 : ℚ), 6].length = [(1 : ℚ), 2].length) ∧
    ([(7 : ℚ), 8].length = [(1 : ℚ), 2].length) ∧
    (extract_spectral_features [(1 : ℚ), 2] [3, 4] [5, 6] [7, 8] [0]).centroid.length
      = min ([(1 : ℚ), 2].length) ([(0 : ℚ)].length) :=
  ⟨rfl, rfl, rfl,
   (extract_spectral_features_lengths [(1 : ℚ), 2] [3, 4] [5, 6] [7, 8] [0]
     rfl rfl rfl).1⟩

/-- One entry of the drum grid (analyze_song.py lines 395-402). -/
structure DrumGridEntry where
  time : ℚ
  drums : List String
  hasKick : Bool
  hasSnare : Bool
  kickConfidence : ℚ
  snareConfidence : ℚ
deriving DecidableEq

/-- `detect_drums` (lines 317-404).  The band-pass filters and onset
detectors are external: `kickSet`/`snareSet` are the detected onset-time
lists and `kickEnergy`/`snareEnergy` abstract the windowed mean absolute
amplitude `np.abs(sig[max(0, idx-512):idx+512]).mean()` around sample `idx`
of the corresponding filtered signal of length `kickSigLen`/`snareSigLen`.
The per-beat loop `for i, t in enumerate(beat_times)` appends exactly one
entry per beat and is embedded as a `map`. -/
def detect_drums (sr : ℕ) (kickSet snareSet : List ℚ) (kickSigLen snareSigLen : ℕ)
    (kickEnergy snareEnergy : ℤ → ℚ) (beat_times : List ℚ) : List DrumGridEntry :=
  beat_times.map (fun t =>
    let has_kick := !kickSet.isEmpty && decide (listMin (kickSet.map (fun k => |k - t|)) < 0.05)
    let has_snare :=
      !snareSet.isEmpty && decide (listMin (snareSet.map (fun s => |s - t|)) < 0.05)
    let kick_conf : ℚ :=
      if has_kick then
        if intTrunc (t * sr) < (kickSigLen : ℤ) then
          max 0 ((1 - listMin (kickSet.map (fun k => |k - t|)) / 0.05)
            * min 1 (kickEnergy (intTrunc (t * sr)) * 10))
        else 0
      else 0
    let snare_conf : ℚ :=
      if has_snare then
        if intTrunc (t * sr) < (snareSigLen : ℤ) then
          max 0 ((1 - listMin (snareSet.map (fun s => |s - t|)) / 0.05)
            * min 1 (snareEnergy (intTrunc (t * sr)) * 10))
        else 0
      else 0
    { time := t
      drums := (if has_kick then ["kick"] else []) ++ (if has_snare then ["snare"] else [])
      hasKick := has_kick
      hasSnare := has_snare
      kickConfidence := kick_conf
      snareConfidence := snare_conf })

/-- C9: the drum grid has exactly one entry per beat, in beat order, and the
i-th entry's time equals the i-th beat timestamp (the mapped `time` fields
are exactly the beat list). -/
theorem detect_drums_one_entry_per_beat (sr : ℕ) (kickSet snareSet : List ℚ)
    (kickSigLen snareSigLen : ℕ) (kickEnergy snareEnergy : ℤ → ℚ) (beat_times : List ℚ) :
    ((detect_drums sr kickSet snareSet kickSigLen snareSigLen kickEnergy snareEnergy
        beat_times).map DrumGridEntry.time = beat_times) ∧
    (detect_drums sr kickSet snareSet kickSigLen snareSigLen kickEnergy snareEnergy
        beat_times).length = beat_times.length := by
  constructor
  · rw [detect_drums, List.map_map]
    induction beat_times with
    | nil => rfl
    | cons t ts ih =>
        rw [List.map_cons]
        exact congrArg (List.cons t) ih
  · rw [detect_drums, List.length_map]

/-- Python `pat in s.lower()`. -/
def containsLower (s pat : String) : Bool := hasSub (s.toList.map Char.toLower) pat.toList

/-- The load-failure error text of `analyze` (analyze_song.py lines 584-588):
the base message plus, when "format" or "ffmpeg" occurs in the lowered
exception text, the format-conversion hint. -/
def loadErrorMsg (e : String) : String :=
  if containsLower e "format" || containsLower e "ffmpeg" then
    "Failed to load audio file: " ++ e
      ++ ". This may be due to unsupported audio format or missing ffmpeg. Try converting to WAV format."
  else "Failed to load audio file: " ++ e

/-- Control-flow model of `analyze` in analyze_song.py (lines 577-750).
The three oracles stand for the external stages: `load` is
`librosa.load(...)` (raising = `Except.error` carrying the exception text),
`hpss` is `librosa.effects.hpss` — called with **no** stage-local handler —
and `rest` is everything after HPSS up to and including the result write,
whose uncaught exceptions reach the outer handler.  The result triple is
(error messages printed, process exit status, result artifact): the inner
load handler prints the structured error and `return`s (so the script ends
with exit status 0 and no artifact), while the outer handler prints the
error and calls `sys.exit(1)`.  Error messages are the exception texts; the
traceback the outer handler appends is not modeled. -/
def analyzeRun (load : Except String (List ℚ × ℕ))
    (hpss : List ℚ → Except String (List ℚ × List ℚ))
    (rest : List ℚ → List ℚ → List ℚ → ℕ → Except String String) :
    List String × ℕ × Option String :=
  match load with
  | .error e => ([loadErrorMsg e], 0, none)
  | .ok (y, sr) =>
    match hpss y with
    | .error e => ([e], 1, none)
    | .ok (y_harm, y_perc) =>
      match rest y y_harm y_perc sr with
      | .error e => ([e], 1, none)
      | .ok path => ([], 0, some path)

/-- Control-flow model of `analyze` in analyze_song_hpss.py (lines 126-294):
the load call has no inner handler (a load failure reaches the outer handler
and exits 1), while the HPSS call is wrapped in `try/except` falling back to
`(y, y)`. -/
def analyzeHpssRun (load : Except String (List ℚ × ℕ))
    (hpss : List ℚ → Except String (List ℚ × List ℚ))
    (rest : List ℚ → List ℚ → List ℚ → ℕ → Except String String) :
    List String × ℕ × Option String :=
  match load with
  | .error e => ([e], 1, none)
  | .ok (y, sr) =>
    match (match hpss y with
           | .error _ => (y, y)
           | .ok p => p) with
    | (y_harmonic, y_percussive) =>
      match rest y y_harmonic y_percussive sr with
      | .error e => ([e], 1, none)
      | .ok path => ([], 0, some path)

/-- C2 counterexample: in the enhanced analyzer an HPSS failure is NOT
absorbed — the run surfaces the error to the caller and exits with status 1,
producing no artifact, contradicting the claimed degraded-but-safe
fallback. -/
theorem hpss_failure_claim_counterexample :
    analyzeRun (.ok ([0], 22050)) (fun _ => .error "hpss numerical error")
        (fun _ _ _ _ => .ok "result.json")
      = (["hpss numerical error"], 1, none) := rfl

/-- C2 amended: only the HPSS-variant analyzer (analyze_song_hpss.py)
absorbs a separation failure, continuing with the unmodified signal as both
components exactly as if HPSS had returned `(y, y)`; in the enhanced
analyzer (analyze_song.py) the same failure propagates to the top-level
handler, which reports the error and exits with status 1 and no artifact. -/
theorem hpss_failure_handling (load : Except String (List ℚ × ℕ))
    (hpss : List ℚ → Except String (List ℚ × List ℚ))
    (rest : List ℚ → List ℚ → List ℚ → ℕ → Except String String)
    (y : List ℚ) (sr : ℕ) (e : String)
    (hl : load = .ok (y, sr)) (hh : hpss y = .error e) :
    analyzeRun load hpss rest = ([e], 1, none) ∧
    analyzeHpssRun load hpss rest = analyzeHpssRun load (fun z => .ok (z, z)) rest := by
  subst hl
  constructor
  · simp [analyzeRun, hh]
  · simp [analyzeHpssRun, hh]

/-- C2 witness: the amended theorem applied at concrete oracles. -/
theorem hpss_failure_handling_witness :
    ((.ok ([(0 : ℚ)], 22050) : Except String (List ℚ × ℕ)) = .ok ([(0 : ℚ)], 22050)) ∧
    ((fun _ : List ℚ => (.error "numerical instability" :
        Except String (List ℚ × List ℚ))) [(0 : ℚ)] = .error "numerical instability") ∧
    analyzeRun (.ok ([(0 : ℚ)], 22050)) (fun _ => .error "numerical instability")
        (fun _ _ _ _ => .ok "p") = (["numerical instability"], 1, none) ∧
    analyzeHpssRun (.ok ([(0 : ℚ)], 22050)) (fun _ => .error "numerical instability")
        (fun _ _ _ _ => .ok "p")
      = analyzeHpssRun (.ok ([(0 : ℚ)], 22050)) (fun z => .ok (z, z))
          (fun _ _ _ _ => .ok "p") := by
  refine ⟨rfl, rfl, ?_, ?_⟩
  · exact (hpss_failure_handling _ _ _ _ _ _ rfl rfl).1
  · exact (hpss_failure_handling _ _ _ _ _ _ rfl rfl).2

/-- C3 counterexample: on a load failure with an unsupported-format message
the enhanced analyzer emits the single structured error (with the
format-conversion hint) and produces no artifact, but the process exit
status is 0 — the same as a successful run — not a distinct nonzero status:
the inner handler `return`s instead of calling `sys.exit(1)`. -/
theorem load_failure_claim_counterexample :
    analyzeRun (.error "unsupported format") (fun y => .ok (y, y))
        (fun _ _ _ _ => .ok "result.json")
      = (["Failed to load audio file: unsupported format. This may be due to unsupported audio format or missing ffmpeg. Try converting to WAV format."],
         0, none) ∧
    (analyzeRun (.error "unsupported format") (fun y => .ok (y, y))
        (fun _ _ _ _ => .ok "result.json")).2.1 = 0 := by
  constructor
  · with_unfolding_all rfl
  · with_unfolding_all rfl

/-- C3 amended: for every failing load the run emits exactly one structured
error message — `loadErrorMsg e`, which carries the format-conversion hint
whenever "format" or "ffmpeg" occurs in the exception text — produces no
artifact, and terminates with exit status 0 (not a distinct nonzero
status). -/
theorem load_failure_handling (load : Except String (List ℚ × ℕ))
    (hpss : List ℚ → Except String (List ℚ × List ℚ))
    (rest : List ℚ → List ℚ → List ℚ → ℕ → Except String String)
    (e : String) (hl : load = .error e) :
    analyzeRun load hpss rest = ([loadErrorMsg e], 0, none) ∧
    ((containsLower e "format" || containsLower e "ffmpeg") = true →
      loadErrorMsg e = "Failed to load audio file: " ++ e
        ++ ". This may be due to unsupported audio format or missing ffmpeg. Try converting to WAV format.") := by
  subst hl
  constructor
  · rfl
  · intro hc
    simp [loadErrorMsg, hc]

/-- C3 witness: the amended theorem applied at a concrete failing load. -/
theorem load_failure_handling_witness :
    ((.error "no ffmpeg" : Except String (List ℚ × ℕ)) = .error "no ffmpeg") ∧
    analyzeRun (.error "no ffmpeg") (fun y => .ok (y, y)) (fun _ _ _ _ => .ok "p")
      = ([loadErrorMsg "no ffmpeg"], 0, none) ∧
    ((containsLower "no ffmpeg" "format" || containsLower "no ffmpeg" "ffmpeg") = true →
      loadErrorMsg "no ffmpeg" = "Failed to load audio file: " ++ "no ffmpeg"
        ++ ". This may be due to unsupported audio format or missing ffmpeg. Try converting to WAV format.") := by
  refine ⟨rfl, ?_, ?_⟩
  · exact (load_failure_handling _ (fun y => .ok (y, y)) (fun _ _ _ _ => .ok "p")
      "no ffmpeg" rfl).1
  · exact (load_failure_handling (.error "no ffmpeg") (fun y => .ok (y, y))
      (fun _ _ _ _ => .ok "p") "no ffmpeg" rfl).2
